import Mathlib

/-!
Shallow embedding of the effect-faker mock-data generator
(`src/faker-registry.ts`, `src/effect-faker.ts`, `src/generator.ts`,
`src/types/types.ts`) together with proofs about the claims of its
specification.

External capabilities (the @faker-js/faker provider, `Math.random`,
`JSON.parse`, JS string/number coercions) are modelled by concrete
executable functions; the repository's own code (`MockGenerator`,
`EffectFaker`) is translated statement by statement.
-/

namespace EffectFakerModel

/-! ## JS 32-bit integer arithmetic -/

/-- Wrap an integer to the 32-bit signed range, as JS bitwise operators do
(`ToInt32`). -/
def wrap32 (x : Int) : Int := (x + 2147483648) % 4294967296 - 2147483648

/-- One step of the string-seed hash loop in `MockGenerator.setupSeed` /
`EffectFaker.seed`: `hash = (hash << 5) - hash + char; hash = hash & hash`.
`hash << 5` coerces to int32 (so it is `wrap32 (h * 32)`), the subtraction and
addition are exact in doubles, and `hash & hash` coerces the result back to
int32. -/
def jsHashStep (h : Int) (c : Nat) : Int := wrap32 (wrap32 (h * 32) - h + c)

/-- The full string-seed hash of `setupSeed` (fold over the string's character
codes starting from 0). -/
def jsHash (s : String) : Int := s.data.foldl (fun h ch => jsHashStep h ch.toNat) 0

/-- `Math.abs(hash)` applied to the hash: the integer seed value derived from a
string seed. -/
def stringSeedValue (s : String) : Int := (jsHash s).natAbs

/-- Modelled from the spec (§4.4): the accumulator step
`acc = (acc * 31 + charCode)` with wraparound to the 32-bit signed range. -/
def specHashStep (h : Int) (c : Nat) : Int := wrap32 (h * 31 + c)

/-- Modelled from the spec (§4.4): fold `specHashStep` over the character
codes. -/
def specHash (s : String) : Int := s.data.foldl (fun h ch => specHashStep h ch.toNat) 0

/-! ## JS values -/

/-- JS runtime values produced by the generator (and JSON values fed to
provider methods). `nan` stands for the JS number `NaN`. -/
inductive Value where
  | str (s : String)
  | num (q : ℚ)
  | nan
  | bool (b : Bool)
  | date (t : Int)
  | obj (fields : List (String × Value))
  | arr (elems : List Value)
  | null
deriving Repr

/-! ### Character-list string helpers (kernel-reducible models of JS string
builtins) -/

/-- Is `pat` a prefix of `l`? -/
def listStartsWith : List Char → List Char → Bool
  | [], _ => true
  | _ :: _, [] => false
  | p :: ps, c :: cs => p == c && listStartsWith ps cs

/-- Does `l` contain `pat` as a contiguous sublist? -/
def listContainsSub (pat : List Char) : List Char → Bool
  | [] => listStartsWith pat []
  | c :: cs => listStartsWith pat (c :: cs) || listContainsSub pat cs

/-- Model of the JS `s.includes(pat)` test. -/
def strContains (s pat : String) : Bool := listContainsSub pat.data s.data

/-- Model of JS `s.toLowerCase()` (ASCII). -/
def strToLower (s : String) : String := String.mk (s.data.map Char.toLower)

/-- Digits of a character list as a natural number, if all characters are
digits (and the list is nonempty). -/
def digitsToNat : List Char → Option Nat
  | [] => none
  | l =>
    if l.all Char.isDigit then
      some (l.foldl (fun acc c => acc * 10 + (c.toNat - 48)) 0)
    else none

/-- Parse an optionally-signed integer literal. -/
def parseIntLit : List Char → Option Int
  | '-' :: rest => (digitsToNat rest).map (fun n => -(n : Int))
  | l => (digitsToNat l).map Int.ofNat

/-- Model of JS whitespace trimming. -/
def strTrim (s : String) : String :=
  String.mk (((s.data.dropWhile Char.isWhitespace).reverse.dropWhile Char.isWhitespace).reverse)

/-- Kernel-reducible `String.intercalate`. -/
def strJoin (sep : String) : List String → String
  | [] => ""
  | [x] => x
  | x :: y :: rest => x ++ sep ++ strJoin sep (y :: rest)

/-- Model of the JS String() coercion on the values the generator produces
(arrays and objects are simplified; no claim depends on them). -/
def jsString : Value → String
  | .str s => s
  | .num q => if q.den = 1 then toString q.num else toString q.num ++ "/" ++ toString q.den
  | .nan => "NaN"
  | .bool b => if b then "true" else "false"
  | .date t => "[Date " ++ toString t ++ "]"
  | .obj _ => "[object Object]"
  | .arr _ => "[array]"
  | .null => "null"

/-- Model of the JS Number() coercion (string parsing restricted to integer
literals; no claim depends on the omitted cases). -/
def jsNumber : Value → Value
  | .num q => .num q
  | .nan => .nan
  | .bool b => .num (if b then 1 else 0)
  | .null => .num 0
  | .date t => .num t
  | .str s =>
    if strTrim s = "" then .num 0
    else
      match parseIntLit (strTrim s).data with
      | some n => .num n
      | none => .nan
  | .obj _ => .nan
  | .arr _ => .nan

/-- Model of the JS Boolean() coercion (truthiness). -/
def jsBool : Value → Bool
  | .str s => s ≠ ""
  | .num q => q ≠ 0
  | .nan => false
  | .bool b => b
  | .null => false
  | .date _ => true
  | .obj _ => true
  | .arr _ => true

/-- Model of the JS `new Date(x)` constructor (string parsing simplified; no
claim depends on its value). -/
def jsDate : Value → Value
  | .date t => .date t
  | .num q => .date q.floor
  | .str s => .date ((parseIntLit (strTrim s).data).getD 0)
  | _ => .date 0

/-! ## The randomness/locale provider (external capability, concrete model)

The @faker-js/faker provider is modelled as a locale label plus a
deterministic LCG stream; every categorized generator draws from the stream.
-/

/-- A Faker instance: its locale and its PRNG state. -/
structure FakerInst where
  locale : String
  prng : Nat
deriving Repr, DecidableEq

/-- The LCG step of the model provider's PRNG. -/
def lcgNext (n : Nat) : Nat := (n * 1103515245 + 12345) % 4294967296

/-- Draw one random number from a Faker instance. -/
def fakerDraw (fk : FakerInst) : Nat × FakerInst :=
  let n := lcgNext fk.prng
  (n, { fk with prng := n })

/-- `faker.seed([v])`: reset the PRNG state from an integer seed. -/
def fakerApplySeed (fk : FakerInst) (v : Int) : FakerInst :=
  { fk with prng := v.natAbs % 4294967296 }

/-- `new Faker({ locale })`: a fresh provider instance for a locale (fixed
initial PRNG state in the model). -/
def newFaker (locale : String) : FakerInst := { locale := locale, prng := 42 }

/-- Model of the external `allLocales` table's keys (the tests require at
least en, fr, de). -/
def allLocaleKeys : List String := ["en", "fr", "de", "es", "it", "ja"]

def modelWords : List String :=
  ["lorem", "ipsum", "dolor", "sit", "amet", "consectetur", "adipiscing", "elit"]

/-- `faker.lorem.word()`. -/
def loremWord (fk : FakerInst) : String × FakerInst :=
  let (n, fk') := fakerDraw fk
  (modelWords.getD (n % modelWords.length) "lorem", fk')

/-- `faker.lorem.sentence()`. -/
def loremSentence (fk : FakerInst) : String × FakerInst :=
  let (n, fk') := fakerDraw fk
  ("Sentence " ++ toString (n % 1000) ++ ".", fk')

/-- `faker.lorem.paragraph()`. -/
def loremParagraph (fk : FakerInst) : String × FakerInst :=
  let (n, fk') := fakerDraw fk
  ("Paragraph " ++ toString (n % 1000) ++ ".", fk')

/-- `faker.internet.email()`. -/
def internetEmail (fk : FakerInst) : String × FakerInst :=
  let (n, fk') := fakerDraw fk
  ("user" ++ toString (n % 100000) ++ "@example.com", fk')

/-- `faker.internet.url()`. -/
def internetUrl (fk : FakerInst) : String × FakerInst :=
  let (n, fk') := fakerDraw fk
  ("https://site-" ++ toString (n % 100000) ++ ".example.com", fk')

/-- `faker.person.fullName()`. -/
def personFullName (fk : FakerInst) : String × FakerInst :=
  let (n, fk') := fakerDraw fk
  ("Person " ++ toString (n % 100000), fk')

/-- `faker.person.firstName()`. -/
def personFirstName (fk : FakerInst) : String × FakerInst :=
  let (n, fk') := fakerDraw fk
  ("First" ++ toString (n % 1000), fk')

/-- `faker.phone.number()`. -/
def phoneNumber (fk : FakerInst) : String × FakerInst :=
  let (n, fk') := fakerDraw fk
  ("555-" ++ toString (n % 10000), fk')

/-- `faker.location.streetAddress()`. -/
def locationStreetAddress (fk : FakerInst) : String × FakerInst :=
  let (n, fk') := fakerDraw fk
  (toString (n % 1000) ++ " Main St", fk')

/-- `faker.location.city()`. -/
def locationCity (fk : FakerInst) : String × FakerInst :=
  let (n, fk') := fakerDraw fk
  ("City" ++ toString (n % 1000), fk')

/-- `faker.location.country()`. -/
def locationCountry (fk : FakerInst) : String × FakerInst :=
  let (n, fk') := fakerDraw fk
  ("Country" ++ toString (n % 1000), fk')

/-- `faker.string.uuid()`. -/
def stringUuid (fk : FakerInst) : String × FakerInst :=
  let (n, fk') := fakerDraw fk
  ("00000000-0000-4000-8000-" ++ toString (100000000000 + n % 100000000000), fk')

def alphanumChars : List Char := "abcdefghijklmnopqrstuvwxyz0123456789".data

/-- `faker.string.alphanumeric(m)`: a string of `m` alphanumeric characters. -/
def stringAlphanumeric : Nat → FakerInst → String × FakerInst
  | 0, fk => ("", fk)
  | m + 1, fk =>
    let (n, fk') := fakerDraw fk
    let (rest, fk'') := stringAlphanumeric m fk'
    (String.mk (alphanumChars.getD (n % alphanumChars.length) 'a' :: rest.data), fk'')

/-- `faker.number.int({ min, max })` (both bounds inclusive). -/
def numberIntRange (lo hi : Int) (fk : FakerInst) : Int × FakerInst :=
  let (n, fk') := fakerDraw fk
  (lo + (n : Int) % (hi - lo + 1), fk')

/-- `faker.number.int()` with no options: 0 .. Number.MAX_SAFE_INTEGER. -/
def numberIntDefault (fk : FakerInst) : Int × FakerInst :=
  numberIntRange 0 9007199254740991 fk

/-- `faker.number.float({ min, max, fractionDigits })`. -/
def numberFloatRange (lo hi : ℚ) (digits : Nat) (fk : FakerInst) : ℚ × FakerInst :=
  let (n, fk') := fakerDraw fk
  let scale : ℚ := (10 : ℚ) ^ digits
  (lo + ((n : ℚ) % (((hi - lo) * scale).floor.toNat + 1 : Nat)) / scale, fk')

/-- `faker.datatype.boolean()`. -/
def datatypeBoolean (fk : FakerInst) : Bool × FakerInst :=
  let (n, fk') := fakerDraw fk
  (n % 2 == 1, fk')

/-- The model's "now" (ms since epoch). -/
def modelNow : Int := 1700000000000

def yearMs : Int := 31536000000

def dayMs : Int := 86400000

/-- `faker.date.past()`: a date strictly in the past. -/
def datePast (fk : FakerInst) : Int × FakerInst :=
  let (n, fk') := fakerDraw fk
  (modelNow - (1 + (n : Int) % yearMs), fk')

/-- `faker.date.recent()`: a date within the last day. -/
def dateRecent (fk : FakerInst) : Int × FakerInst :=
  let (n, fk') := fakerDraw fk
  (modelNow - (n : Int) % dayMs, fk')

/-- `faker.date.future()`: a date strictly in the future. -/
def dateFuture (fk : FakerInst) : Int × FakerInst :=
  let (n, fk') := fakerDraw fk
  (modelNow + 1 + (n : Int) % yearMs, fk')

/-! ## Math.random (ambient, unseeded randomness)

`Math.random` is modelled with a resolution of thousandths: each draw from the
ambient world stream yields `t ∈ [0, 1000)`, standing for the real number
`t / 1000 ∈ [0, 1)`. The world stream is independent of every Faker seed. -/

/-- One `Math.random()` draw, in thousandths. -/
def mathRandomT : List Nat → Nat × List Nat
  | [] => (0, [])
  | n :: rest => (n % 1000, rest)

/-- The rational value of a thousandths draw. -/
def randVal (t : Nat) : ℚ := (t : ℚ) / 1000

/-! ## JSON.parse (external builtin, concrete model on a subset)

Model of `JSON.parse` restricted to `null`, booleans, integer literals,
escape-free string literals and flat objects of those scalars — the shapes the
method-spec interpreter's argument blobs take. Control-flow claims only
depend on whether the parse succeeds. -/

def lbrace : Char := Char.ofNat 123

def rbrace : Char := Char.ofNat 125

/-- Split a character list at every occurrence of `sep`, as JS
`s.split(sep)` does. -/
def splitOnChar (sep : Char) : List Char → List (List Char)
  | [] => [[]]
  | c :: tl =>
    if c = sep then [] :: splitOnChar sep tl
    else
      match splitOnChar sep tl with
      | [] => [[c]]
      | h :: t => (c :: h) :: t

/-- Parse an escape-free double-quoted string literal. -/
def parseStringLit : List Char → Option String
  | '"' :: rest =>
    match rest.getLast? with
    | some '"' =>
      if rest.dropLast.any (fun ch => ch == '"') then none
      else some (String.mk rest.dropLast)
    | _ => none
  | _ => none

/-- Parse a scalar JSON value. -/
def jsonScalar (s : String) : Option Value :=
  let t := strTrim s
  if t = "null" then some .null
  else if t = "true" then some (.bool true)
  else if t = "false" then some (.bool false)
  else
    match parseIntLit t.data with
    | some n => some (.num (n : ℚ))
    | none => (parseStringLit t.data).map .str

/-- Split at the first colon. -/
def splitFirstColon : List Char → Option (List Char × List Char)
  | [] => none
  | c :: tl =>
    if c = ':' then some ([], tl)
    else (splitFirstColon tl).map (fun p => (c :: p.1, p.2))

/-- Parse one `"key": scalar` pair. -/
def jsonPair (s : String) : Option (String × Value) := do
  let (k, v) ← splitFirstColon s.data
  let key ← parseStringLit (strTrim (String.mk k)).data
  let value ← jsonScalar (String.mk v)
  pure (key, value)

/-- Model of the `JSON.parse` builtin (subset). -/
def jsonParse (s : String) : Option Value :=
  let t := strTrim s
  match t.data with
  | [] => none
  | c :: rest =>
    if c = lbrace then
      match rest.getLast? with
      | some d =>
        if d = rbrace then
          let inner := rest.dropLast
          if strTrim (String.mk inner) = "" then some (.obj [])
          else do
            let pairs ← (splitOnChar ',' inner).mapM (fun p => jsonPair (String.mk p))
            pure (.obj pairs)
        else none
      | none => none
    else jsonScalar t

/-! ## The provider's object graph and wrapped methods -/

/-- A member of the provider's object graph: a namespace object, a callable
method, or a plain non-callable property. -/
inductive FakerMember where
  | ns (children : List (String × FakerMember))
  | fn (f : Option Value → FakerInst → Value × FakerInst)
  | prop (v : Value)

/-- Optional min/max-style numeric field of a JSON argument object. -/
def jsonNumField (arg : Option Value) (key : String) : Option ℚ :=
  match arg with
  | some (.obj fields) =>
    match fields.lookup key with
    | some (.num q) => some q
    | _ => none
  | _ => none

/-- Lift a string-producing provider call (ignores its argument). -/
def fnOfStr (g : FakerInst → String × FakerInst) :
    Option Value → FakerInst → Value × FakerInst := fun _ fk =>
  let (s, fk') := g fk
  (.str s, fk')

/-- Lift a boolean-producing provider call. -/
def fnOfBool (g : FakerInst → Bool × FakerInst) :
    Option Value → FakerInst → Value × FakerInst := fun _ fk =>
  let (b, fk') := g fk
  (.bool b, fk')

/-- Lift a date-producing provider call. -/
def fnOfDate (g : FakerInst → Int × FakerInst) :
    Option Value → FakerInst → Value × FakerInst := fun _ fk =>
  let (t, fk') := g fk
  (.date t, fk')

/-- `faker.number.int` as called through the interpreter, honoring a
`min`/`max` argument object. -/
def fnNumberInt (arg : Option Value) (fk : FakerInst) : Value × FakerInst :=
  let lo := ((jsonNumField arg "min").getD 0).floor
  let hi := ((jsonNumField arg "max").getD 9007199254740991).floor
  let (v, fk') := numberIntRange lo hi fk
  (.num (v : ℚ), fk')

/-- `faker.number.float` as called through the interpreter. -/
def fnNumberFloat (arg : Option Value) (fk : FakerInst) : Value × FakerInst :=
  let lo := (jsonNumField arg "min").getD 0
  let hi := (jsonNumField arg "max").getD 1
  let digits := ((jsonNumField arg "fractionDigits").getD 6).floor.toNat
  let (q, fk') := numberFloatRange lo hi digits fk
  (.num q, fk')

/-- `faker.string.alphanumeric` as called through the interpreter. -/
def fnStringAlphanumeric (arg : Option Value) (fk : FakerInst) : Value × FakerInst :=
  let m := match arg with
    | some (.num q) => q.floor.toNat
    | _ => 1
  let (s, fk') := stringAlphanumeric m fk
  (.str s, fk')

/-- The dotted-path object graph of the model provider. -/
def providerGraph : FakerMember :=
  .ns [
    ("lorem", .ns [("word", .fn (fnOfStr loremWord)),
                   ("sentence", .fn (fnOfStr loremSentence)),
                   ("paragraph", .fn (fnOfStr loremParagraph))]),
    ("internet", .ns [("email", .fn (fnOfStr internetEmail)),
                      ("url", .fn (fnOfStr internetUrl))]),
    ("person", .ns [("fullName", .fn (fnOfStr personFullName)),
                    ("firstName", .fn (fnOfStr personFirstName))]),
    ("phone", .ns [("number", .fn (fnOfStr phoneNumber))]),
    ("location", .ns [("streetAddress", .fn (fnOfStr locationStreetAddress)),
                      ("city", .fn (fnOfStr locationCity)),
                      ("country", .fn (fnOfStr locationCountry))]),
    ("number", .ns [("int", .fn fnNumberInt),
                    ("float", .fn fnNumberFloat)]),
    ("string", .ns [("uuid", .fn (fnOfStr stringUuid)),
                    ("alphanumeric", .fn fnStringAlphanumeric)]),
    ("datatype", .ns [("boolean", .fn (fnOfBool datatypeBoolean))]),
    ("date", .ns [("past", .fn (fnOfDate datePast)),
                  ("recent", .fn (fnOfDate dateRecent)),
                  ("future", .fn (fnOfDate dateFuture))])
  ]

/-- Walk the provider graph by successive segment lookup; `none` models an
absent (undefined, hence falsy) member. -/
def resolveMember : FakerMember → List String → Option FakerMember
  | m, [] => some m
  | .ns children, p :: ps =>
    match children.lookup p with
    | some m => resolveMember m ps
    | none => none
  | .fn _, _ :: _ => none
  | .prop _, _ :: _ => none

/-! ## The method-invocation interpreter (`MockGenerator.executeFakerMethod`) -/

/-- A character matched by the regex class `[a-zA-Z.]`. -/
def isPathChar (c : Char) : Bool := c.isAlpha || c == '.'

/-- Model of matching `^([a-zA-Z.]+)(?:\((.+)\))?$` against the spec string:
either a nonempty letters-and-dots path alone, or such a path followed by a
parenthesized nonempty argument blob ending at the final character (the `.` in
`(.+)` does not match line terminators). -/
def parseFakerSpec (s : String) : Option (String × Option String) :=
  let p := s.data.takeWhile isPathChar
  let rest := s.data.dropWhile isPathChar
  if p.isEmpty then none
  else
    match rest with
    | [] => some (String.mk p, none)
    | c :: rest' =>
      if c = '(' then
        match rest'.getLast? with
        | some d =>
          if d = ')' then
            let mid := rest'.dropLast
            if mid.isEmpty then none
            else if mid.any (fun ch => ch == '\n' || ch == '\r') then none
            else some (String.mk p, some (String.mk mid))
          else none
        | none => none
      else none

/-- `MockGenerator.executeFakerMethod`: parse a spec string such as
`number.int(...)`, walk the provider, and invoke, falling back to a single
word whenever anything does not resolve. -/
def executeFakerMethod (fk : FakerInst) (fakerPath : String) : Value × FakerInst :=
  match parseFakerSpec fakerPath with
  | none =>
    let (w, fk') := loremWord fk
    (.str w, fk')
  | some (path, argsStr) =>
    let pathParts := (splitOnChar '.' path.data).map String.mk
    match resolveMember providerGraph pathParts with
    | some (.fn f) =>
      (match argsStr with
       | some a =>
         (match jsonParse a with
          | some args => f (some args) fk
          | none => f none fk)
       | none => f none fk)
    | _ =>
      let (w, fk') := loremWord fk
      (.str w, fk')

/-- `Math.floor(r * len)` for `r = t / 1000`: in the model this is computed
as natural division. -/
def randomIndex (t len : Nat) : Nat := t * len / 1000

/-! ## Field override configuration (`types.ts`: `FieldMockConfig` etc.) -/

/-- A per-field override: an explicit function, a method-spec string, or a
structured `FieldMockConfig` (only its `faker` and `transform` members are
read by the generator). -/
inductive FieldOverride where
  | ofFn (f : Unit → Value)
  | ofStr (spec : String)
  | ofCfg (faker : Option String) (transform : Option (Value → Value))

/-- `SchemaMockConfig` / `GenerateASTConfig`: a field-name-keyed lookup of
overrides (`none` models an absent key). -/
def Config := String → Option FieldOverride

/-- `MockGenerator.getFieldName`: `path.split('.').pop() || path`. -/
def getFieldName (path : String) : String :=
  let last := (splitOnChar '.' path.data).getLastD []
  if last.isEmpty then path else String.mk last

/-- JS truthiness of the optional `faker` member of a structured override
(`if (fieldConfig?.faker)`). -/
def strTruthy : Option String → Bool
  | some s => s != ""
  | none => false

/-! ## Per-kind generators (`MockGenerator.generateString` etc.) -/

/-- The field-name heuristic chain of `generateString` (its code after the
override checks). -/
def generateStringHeuristic (path : String) (fk : FakerInst) : String × FakerInst :=
  let fieldName := strToLower (getFieldName path)
  if strContains fieldName "email" then internetEmail fk
  else if strContains fieldName "name" then personFullName fk
  else if strContains fieldName "phone" then phoneNumber fk
  else if strContains fieldName "address" then locationStreetAddress fk
  else if strContains fieldName "city" then locationCity fk
  else if strContains fieldName "country" then locationCountry fk
  else if strContains fieldName "url" then internetUrl fk
  else if strContains fieldName "title" then loremSentence fk
  else if strContains fieldName "description" then loremParagraph fk
  else loremWord fk

/-- `MockGenerator.generateString`. -/
def generateString (path : String) (fieldConfig : Option FieldOverride)
    (fk : FakerInst) : String × FakerInst :=
  match fieldConfig with
  | some (.ofFn f) => (jsString (f ()), fk)
  | some (.ofStr spec) =>
    let (v, fk') := executeFakerMethod fk spec
    (jsString v, fk')
  | some (.ofCfg fakerSpec transform) =>
    if strTruthy fakerSpec then
      let (v, fk') := executeFakerMethod fk (fakerSpec.getD "")
      (match transform with
       | some tr => jsString (tr v)
       | none => jsString v, fk')
    else generateStringHeuristic path fk
  | none => generateStringHeuristic path fk

/-- The field-name heuristic chain of `generateNumber`. -/
def generateNumberHeuristic (path : String) (fk : FakerInst) : Value × FakerInst :=
  let fieldName := strToLower (getFieldName path)
  if fieldName = "id" then
    let (v, fk') := numberIntRange 1 100000 fk
    (.num (v : ℚ), fk')
  else if strContains fieldName "age" then
    let (v, fk') := numberIntRange 18 80 fk
    (.num (v : ℚ), fk')
  else if strContains fieldName "price" || strContains fieldName "cost" then
    let (q, fk') := numberFloatRange 10 1000 2 fk
    (.num q, fk')
  else if strContains fieldName "count" || strContains fieldName "quantity" then
    let (v, fk') := numberIntRange 1 100 fk
    (.num (v : ℚ), fk')
  else
    let (v, fk') := numberIntDefault fk
    (.num (v : ℚ), fk')

/-- `MockGenerator.generateNumber`. -/
def generateNumber (path : String) (fieldConfig : Option FieldOverride)
    (fk : FakerInst) : Value × FakerInst :=
  match fieldConfig with
  | some (.ofFn f) => (jsNumber (f ()), fk)
  | some (.ofStr spec) =>
    let (v, fk') := executeFakerMethod fk spec
    (jsNumber v, fk')
  | some (.ofCfg fakerSpec transform) =>
    if strTruthy fakerSpec then
      let (v, fk') := executeFakerMethod fk (fakerSpec.getD "")
      (match transform with
       | some tr => jsNumber (tr v)
       | none => jsNumber v, fk')
    else generateNumberHeuristic path fk
  | none => generateNumberHeuristic path fk

/-- `MockGenerator.generateBoolean`. -/
def generateBoolean (path : String) (fieldConfig : Option FieldOverride)
    (fk : FakerInst) : Bool × FakerInst :=
  match fieldConfig with
  | some (.ofFn f) => (jsBool (f ()), fk)
  | some (.ofStr spec) =>
    let (v, fk') := executeFakerMethod fk spec
    (jsBool v, fk')
  | some (.ofCfg fakerSpec transform) =>
    if strTruthy fakerSpec then
      let (v, fk') := executeFakerMethod fk (fakerSpec.getD "")
      (match transform with
       | some tr => jsBool (tr v)
       | none => jsBool v, fk')
    else datatypeBoolean fk
  | none => datatypeBoolean fk

/-- The Date-specific field-name heuristic chain of `generateDate`. -/
def generateDateHeuristic (path : String) (fk : FakerInst) : Value × FakerInst :=
  let fieldName := strToLower (getFieldName path)
  if strContains fieldName "created" || strContains fieldName "birth" then
    let (t, fk') := datePast fk
    (.date t, fk')
  else if strContains fieldName "updated" || strContains fieldName "modified" then
    let (t, fk') := dateRecent fk
    (.date t, fk')
  else if strContains fieldName "expire" || strContains fieldName "due" then
    let (t, fk') := dateFuture fk
    (.date t, fk')
  else
    let (t, fk') := dateRecent fk
    (.date t, fk')

/-- `MockGenerator.generateDate`. -/
def generateDate (path : String) (fieldConfig : Option FieldOverride)
    (fk : FakerInst) : Value × FakerInst :=
  match fieldConfig with
  | some (.ofFn f) => (jsDate (f ()), fk)
  | some (.ofStr spec) =>
    let (v, fk') := executeFakerMethod fk spec
    (jsDate v, fk')
  | some (.ofCfg fakerSpec transform) =>
    if strTruthy fakerSpec then
      let (v, fk') := executeFakerMethod fk (fakerSpec.getD "")
      (match transform with
       | some tr => jsDate (tr v)
       | none => jsDate v, fk')
    else generateDateHeuristic path fk
  | none => generateDateHeuristic path fk

/-! ## The schema AST (opaque external tree, as read by the engine) -/

/-- The TypeNode variants the engine dispatches on (`ast._tag`). A
`declaration` carries the tag string the engine reads off the node and its
type parameters; `other` stands for any unrecognized node kind. -/
inductive AST where
  | stringKeyword
  | numberKeyword
  | booleanKeyword
  | typeLiteral (props : List (String × AST))
  | union (types : List AST)
  | tupleType (elements : List AST)
  | refinement (base : AST)
  | transformation (source : AST)
  | literal (value : Value)
  | declaration (tag : String) (typeParameters : List AST)
  | other
deriving Repr

/-- The mutable engine state threaded through one AST walk: the active
provider instance and the ambient `Math.random` stream. -/
structure RunState where
  fk : FakerInst
  world : List Nat
deriving Repr, DecidableEq

/-- The default arm of `generateFromAST`: fall back to a single word. -/
def fallbackWord (st : RunState) : Value × RunState :=
  let (w, fk') := loremWord st.fk
  (.str w, { st with fk := fk' })

/-- The `randomType._tag === 'Literal'` test of `generateUnion`, with the
literal's value. -/
def astLiteralValue : AST → Option Value
  | .literal v => some v
  | _ => none

mutual

/-- `MockGenerator.generateFromAST`: dispatch on the node kind. -/
def generateFromAST : AST → Config → String → RunState → Value × RunState
  | .stringKeyword, config, path, st =>
    let (s, fk') := generateString path (config (getFieldName path)) st.fk
    (.str s, { st with fk := fk' })
  | .numberKeyword, config, path, st =>
    let (v, fk') := generateNumber path (config (getFieldName path)) st.fk
    (v, { st with fk := fk' })
  | .booleanKeyword, config, path, st =>
    let (b, fk') := generateBoolean path (config (getFieldName path)) st.fk
    (.bool b, { st with fk := fk' })
  | .typeLiteral props, config, path, st =>
    let (fields, st') := generateProps props config path st
    (.obj fields, st')
  | .union types, config, path, st => generateUnion types config path st
  | .tupleType elements, config, path, st =>
    let (elems, st') := generateElems elements 0 config path st
    (.arr elems, st')
  | .refinement base, config, path, st => generateFromAST base config path st
  | .transformation source, config, path, st => generateFromAST source config path st
  | .declaration tag tps, config, path, st => generateDeclaration tag tps config path st
  | .literal _, _, _, st => fallbackWord st
  | .other, _, _, st => fallbackWord st
termination_by ast _ _ _ => (sizeOf ast, 0)

/-- `MockGenerator.generateUnion`: draw `Math.random()`, pick the member at
`Math.floor(r * types.length)`. -/
def generateUnion (types : List AST) (config : Config) (path : String)
    (st : RunState) : Value × RunState :=
  let (t, world') := mathRandomT st.world
  let idx := randomIndex t types.length
  generateUnionPick types idx config path { st with world := world' }
termination_by (sizeOf types, 2)

/-- Evaluation of the picked union member: a `Literal` member's value is
returned directly, any other member is evaluated recursively at the same
path. The empty-list arm is unreachable for trees built by the schema
library, whose `Union` nodes carry at least two members. -/
def generateUnionPick : List AST → Nat → Config → String → RunState → Value × RunState
  | [], _, _, _, st => fallbackWord st
  | ty :: _, 0, config, path, st =>
    match astLiteralValue ty with
    | some v => (v, st)
    | none => generateFromAST ty config path st
  | _ :: tys, n + 1, config, path, st => generateUnionPick tys n config path st
termination_by types _ _ _ _ => (sizeOf types, 1)

/-- `MockGenerator.generateObject`: evaluate each declared property at path
`basePath ? basePath + "." + name : name`, in declared order. -/
def generateProps : List (String × AST) → Config → String → RunState →
    List (String × Value) × RunState
  | [], _, _, st => ([], st)
  | (name, ty) :: rest, config, basePath, st =>
    let fieldPath := if basePath = "" then name else basePath ++ "." ++ name
    let (v, st') := generateFromAST ty config fieldPath st
    let (vs, st'') := generateProps rest config basePath st'
    ((name, v) :: vs, st'')
termination_by props _ _ _ => (sizeOf props, 0)

/-- `MockGenerator.generateTuple`: evaluate each element at path
`path + "[" + i + "]"`. -/
def generateElems : List AST → Nat → Config → String → RunState →
    List Value × RunState
  | [], _, _, _, st => ([], st)
  | ty :: rest, i, config, path, st =>
    let (v, st') := generateFromAST ty config (path ++ "[" ++ toString i ++ "]") st
    let (vs, st'') := generateElems rest (i + 1) config path st'
    (v :: vs, st'')
termination_by elements _ _ _ _ => (sizeOf elements, 0)

/-- `MockGenerator.generateDeclaration`: compute the type name from the
node's tag (suffixed with `<unknown, ...>` when type parameters are present)
and dispatch to the dedicated generators for the recognized names. -/
def generateDeclaration (tag : String) (tps : List AST) (config : Config)
    (path : String) (st : RunState) : Value × RunState :=
  let typeName :=
    if tps.length > 0 then
      tag ++ "<" ++ strJoin ", " (tps.map (fun _ => "unknown")) ++ ">"
    else tag
  if typeName = "Date" then
    let (v, fk') := generateDate path (config (getFieldName path)) st.fk
    (v, { st with fk := fk' })
  else if typeName = "UUID" then
    let (s, fk') := stringUuid st.fk
    (.str s, { st with fk := fk' })
  else if typeName = "ULID" then
    let (s, fk') := stringAlphanumeric 26 st.fk
    (.str s, { st with fk := fk' })
  else if typeName = "Email" then
    let (s, fk') := internetEmail st.fk
    (.str s, { st with fk := fk' })
  else if typeName = "URL" then
    let (s, fk') := internetUrl st.fk
    (.str s, { st with fk := fk' })
  else
    match tps with
    | tp :: _ => generateFromAST tp config path st
    | [] => fallbackWord st
termination_by (sizeOf tps, 1)

end

/-! ## Options, seeding and locale switching -/

/-- A seed option value: `string | number`. -/
inductive SeedV where
  | str (s : String)
  | num (n : Int)
deriving Repr, DecidableEq

/-- A locale option value: `string | LocaleDefinition | Faker` (a locale
definition is reduced to its label in the model). -/
inductive LocaleOpt where
  | code (s : String)
  | definition (label : String)
  | inst (fk : FakerInst)
deriving Repr, DecidableEq

/-- `MockOptions` (`types.ts`). -/
structure MockOptions where
  count : Option Nat := none
  seed : Option SeedV := none
  locale : Option LocaleOpt := none
deriving Repr, DecidableEq

/-- JS truthiness of `options?.seed`: the number 0 and the empty string are
falsy. -/
def seedTruthy : Option SeedV → Bool
  | some (.str s) => s != ""
  | some (.num n) => n != 0
  | none => false

/-- JS truthiness of `options?.locale`: the empty string code is falsy,
object and instance values are truthy. -/
def localeTruthy : Option LocaleOpt → Bool
  | some (.code s) => s != ""
  | some (.definition _) => true
  | some (.inst _) => true
  | none => false

/-- The state of one `MockGenerator` instance: the active provider, the
stored active seed, plus the ambient `Math.random` stream. -/
structure GenState where
  fk : FakerInst
  currentSeed : Option Int
  world : List Nat
deriving Repr, DecidableEq

/-- The integer form of a seed: a string seed is hashed (32-bit rolling hash,
then absolute value), a numeric seed is used unchanged — the shared logic of
`MockGenerator.setupSeed` and `EffectFaker.seed`. -/
def seedValueOf : SeedV → Int
  | .str s => stringSeedValue s
  | .num n => n

/-- `MockGenerator.setupSeed`: compute the integer seed value, store it, and
reseed the active provider. -/
def setupSeed (seed : SeedV) (g : GenState) : GenState :=
  let seedValue := seedValueOf seed
  { g with currentSeed := some seedValue, fk := fakerApplySeed g.fk seedValue }

/-- `MockGenerator.setSeed` (used by `EffectFaker.seed`): store the integer
seed and reseed the active provider. -/
def setSeed (seedValue : Int) (g : GenState) : GenState :=
  { g with currentSeed := some seedValue, fk := fakerApplySeed g.fk seedValue }

/-- The `InvalidLocale` error thrown by `setupLocale` (its message is the
string rendered by `localeErrorMessage`). -/
structure LocaleError where
  locale : String
  available : List String
deriving Repr, DecidableEq

/-- The message of the thrown error:
``Locale '${locale}' not found. Available locales: ${Object.keys(allLocales).join(', ')}``. -/
def localeErrorMessage (e : LocaleError) : String :=
  "Locale '" ++ e.locale ++ "' not found. Available locales: " ++ strJoin ", " e.available

/-- `MockGenerator.setupLocale`: switch the active provider; an unknown
string code throws; afterwards the stored seed, when present, is reapplied to
the new provider instance. -/
def setupLocale (locale : LocaleOpt) (g : GenState) : Except LocaleError GenState :=
  let g1E : Except LocaleError GenState :=
    match locale with
    | .code s =>
      if s ∈ allLocaleKeys then .ok { g with fk := newFaker s }
      else .error { locale := s, available := allLocaleKeys }
    | .inst fk => .ok { g with fk := fk }
    | .definition label => .ok { g with fk := newFaker label }
  match g1E with
  | .error e => .error e
  | .ok g1 =>
    match g1.currentSeed with
    | some v => .ok { g1 with fk := fakerApplySeed g1.fk v }
    | none => .ok g1

/-- The generation loop body of `generateSync`: `count` evaluations of the
root node at path `""`. -/
def generateLoop : Nat → AST → Config → RunState → List Value × RunState
  | 0, _, _, st => ([], st)
  | n + 1, schema, config, st =>
    let (v, st') := generateFromAST schema config "" st
    let (vs, st'') := generateLoop n schema config st'
    (v :: vs, st'')

/-- `MockGenerator.generateSync`: resolve the count, switch locale if the
option is truthy (this can throw), reseed if the seed option is truthy, then
run the loop. -/
def generateSync (schema : AST) (config : Config) (options : MockOptions)
    (g : GenState) : Except LocaleError (List Value × GenState) :=
  let count := options.count.getD 1
  let g1E : Except LocaleError GenState :=
    if localeTruthy options.locale then setupLocale (options.locale.getD (.code "")) g
    else .ok g
  match g1E with
  | .error e => .error e
  | .ok g1 =>
    let g2 := if seedTruthy options.seed then setupSeed (options.seed.getD (.num 0)) g1 else g1
    let (items, st') := generateLoop count schema config { fk := g2.fk, world := g2.world }
    .ok (items, { g2 with fk := st'.fk, world := st'.world })

/-- Modelled from the spec (§4.3, "Steps, per requested item"): a variant of
`generateSync` that repeats the locale switch (step 1) and the reseed
(step 2) before every one of the `count` item evaluations (step 3). Used to
compare the spec's per-item phrasing with the code's once-per-call setup. -/
def generateSyncPerItemSpec (schema : AST) (config : Config)
    (options : MockOptions) : Nat → GenState → Except LocaleError (List Value × GenState)
  | 0, g => .ok ([], g)
  | n + 1, g =>
    let g1E : Except LocaleError GenState :=
      if localeTruthy options.locale then setupLocale (options.locale.getD (.code "")) g
      else .ok g
    match g1E with
    | .error e => .error e
    | .ok g1 =>
      let g2 := if seedTruthy options.seed then setupSeed (options.seed.getD (.num 0)) g1 else g1
      let (v, st') := generateFromAST schema config "" { fk := g2.fk, world := g2.world }
      match generateSyncPerItemSpec schema config options n
          { g2 with fk := st'.fk, world := st'.world } with
      | .error e => .error e
      | .ok (vs, gEnd) => .ok (v :: vs, gEnd)

/-- Modelled from the spec: the per-item engine entry point, with the count
defaulting as in the code. -/
def generateSyncPerItem (schema : AST) (config : Config) (options : MockOptions)
    (g : GenState) : Except LocaleError (List Value × GenState) :=
  generateSyncPerItemSpec schema config options (options.count.getD 1) g

/-! ## General lemmas about the model -/

theorem wrap32_wrap32_add (a b : Int) : wrap32 (wrap32 a + b) = wrap32 (a + b) := by
  unfold wrap32
  omega

theorem jsHashStep_eq_specHashStep (h : Int) (c : Nat) :
    jsHashStep h c = specHashStep h c := by
  unfold jsHashStep specHashStep
  have : wrap32 (h * 32) - h + (c : Int) = wrap32 (h * 32) + (c - h) := by ring
  rw [this, wrap32_wrap32_add]
  ring_nf

theorem foldl_jsHashStep_eq (l : List Char) (h : Int) :
    l.foldl (fun a c => jsHashStep a c.toNat) h
      = l.foldl (fun a c => specHashStep a c.toNat) h := by
  induction l generalizing h with
  | nil => rfl
  | cons ch tl ih => simp [List.foldl, jsHashStep_eq_specHashStep, ih]

theorem jsHash_eq_specHash (s : String) : jsHash s = specHash s :=
  foldl_jsHashStep_eq s.data 0

theorem mathRandomT_lt (w : List Nat) : (mathRandomT w).1 < 1000 := by
  cases w with
  | nil => simp [mathRandomT]
  | cons n rest => simpa [mathRandomT] using Nat.mod_lt n (by norm_num)

theorem randVal_nonneg (t : Nat) : 0 ≤ randVal t := by
  unfold randVal; positivity

theorem randVal_lt_one (t : Nat) (h : t < 1000) : randVal t < 1 := by
  unfold randVal
  rw [div_lt_one (by norm_num)]
  exact_mod_cast h

/-- The model index computation agrees with `⌊r * len⌋` for the rational
value `r` of the draw. -/
theorem randomIndex_eq_floor (t len : Nat) :
    (randomIndex t len : Int) = ⌊randVal t * (len : ℚ)⌋ := by
  unfold randomIndex randVal
  have h : (t : ℚ) / 1000 * (len : ℚ) = ((t * len : Nat) : ℚ) / ((1000 : Nat) : ℚ) := by
    push_cast; ring
  rw [h, Rat.floor_natCast_div_natCast]
  exact (Int.natCast_div _ _).symm


theorem listContainsSub_append_right (pat b : List Char) (a : List Char)
    (h : listContainsSub pat b = true) : listContainsSub pat (a ++ b) = true := by
  induction a with
  | nil => simpa using h
  | cons c cs ih => simp [listContainsSub]; right; exact ih

theorem strContains_append_right (a b pat : String)
    (h : strContains b pat = true) : strContains (a ++ b) pat = true := by
  unfold strContains at h ⊢
  rw [String.data_append]
  exact listContainsSub_append_right _ _ _ h

theorem stringAlphanumeric_spec (m : Nat) (fk : FakerInst) :
    ((stringAlphanumeric m fk).1).data.length = m ∧
    ∀ c ∈ ((stringAlphanumeric m fk).1).data, c ∈ alphanumChars := by
  induction m generalizing fk with
  | zero =>
    refine ⟨rfl, ?_⟩
    intro c hc
    simp [stringAlphanumeric] at hc
  | succ k ih =>
    obtain ⟨hlen, hmem⟩ := ih (fakerDraw fk).2
    simp only [stringAlphanumeric]
    rcases hp : stringAlphanumeric k (fakerDraw fk).2 with ⟨rest, fk2⟩
    rw [hp] at hlen hmem
    simp only [hp]
    constructor
    · simpa using hlen
    · intro c hc
      rcases List.mem_cons.mp hc with h | h
      · rw [h]
        have hlt : (fakerDraw fk).1 % alphanumChars.length < alphanumChars.length :=
          Nat.mod_lt _ (by decide)
        rw [List.getD_eq_getElem _ _ hlt]
        exact List.getElem_mem _
      · exact hmem c h

theorem stringAlphanumeric_length (m : Nat) (fk : FakerInst) :
    ((stringAlphanumeric m fk).1).length = m :=
  (stringAlphanumeric_spec m fk).1

theorem generateLoop_length (n : Nat) (schema : AST) (config : Config) (st : RunState) :
    (generateLoop n schema config st).1.length = n := by
  induction n generalizing st with
  | zero => rfl
  | succ k ih =>
    simp only [generateLoop]
    rcases hp : generateFromAST schema config "" st with ⟨v, st2⟩
    simp only [hp]
    simpa using ih st2

theorem generateUnionPick_eq (types : List AST) (i : Nat) (config : Config)
    (path : String) (st : RunState) (h : i < types.length) :
    generateUnionPick types i config path st =
      match astLiteralValue (types.getD i .other) with
      | some v => (v, st)
      | none => generateFromAST (types.getD i .other) config path st := by
  induction types generalizing i with
  | nil => simp at h
  | cons ty rest ih =>
    cases i with
    | zero => simp only [generateUnionPick, List.getD_cons_zero]
    | succ j =>
      simp only [generateUnionPick, List.getD_cons_succ]
      exact ih j (by simpa using h)

theorem randomIndex_lt (t len : Nat) (ht : t < 1000) (hlen : 0 < len) :
    randomIndex t len < len := by
  unfold randomIndex
  rw [Nat.div_lt_iff_lt_mul (by norm_num)]
  have h1 : t * len <= 999 * len := Nat.mul_le_mul_right _ (by omega)
  omega

/-! ## Claim theorems -/

/-- C7: for every string seed the derived integer seed is the absolute value
of the spec's rolling fold `acc = wrap32 (acc * 31 + charCode)` over the
string's character codes (so the same string always yields the same
integer), and a numeric seed is stored and applied unchanged. -/
theorem seed_hash_matches_spec (s : String) (n : Int) (g : GenState) :
    seedValueOf (.str s) = |specHash s| ∧
    (setupSeed (.str s) g).currentSeed = some |specHash s| ∧
    (setupSeed (.str s) g).fk = fakerApplySeed g.fk |specHash s| ∧
    seedValueOf (.num n) = n ∧
    (setupSeed (.num n) g).currentSeed = some n ∧
    (setupSeed (.num n) g).fk = fakerApplySeed g.fk n := by
  have habs : seedValueOf (.str s) = |specHash s| := by
    show ((jsHash s).natAbs : Int) = _
    rw [jsHash_eq_specHash, Int.abs_eq_natAbs]
  refine ⟨habs, ?_, ?_, rfl, rfl, rfl⟩
  · show some (seedValueOf (.str s)) = _
    rw [habs]
  · show fakerApplySeed g.fk (seedValueOf (.str s)) = _
    rw [habs]

/-- C10: a falsy seed option — the number 0 or the empty string — is
silently ignored by `generateSync`: the call behaves exactly as if no seed
option had been passed (no reseed, stored seed unchanged). -/
theorem falsy_seed_ignored (schema : AST) (config : Config) (options : MockOptions)
    (g : GenState) :
    generateSync schema config { options with seed := some (.num 0) } g =
        generateSync schema config { options with seed := none } g ∧
    generateSync schema config { options with seed := some (.str "") } g =
        generateSync schema config { options with seed := none } g :=
  ⟨rfl, rfl⟩

/-- C1: seeded generation is NOT deterministic for Union schemas: the union
member is picked with ambient `Math.random`, which no seed controls. Two
calls with identical options `{seed: 123, count: 1}` on the two-literal union
`"a" | "b"`, made at successive ambient states (draws 0 and 500 in
thousandths), return the sequences `["a"]` and `["b"]`. -/
theorem union_seeded_calls_disagree :
    (generateSync (.union [.literal (.str "a"), .literal (.str "b")]) (fun _ => none)
        { seed := some (.num 123), count := some 1 }
        { fk := { locale := "en", prng := 7 }, currentSeed := none, world := [0, 500] }
      ).toOption.map (fun p => p.1.map jsString) = some ["a"] ∧
    ((generateSync (.union [.literal (.str "a"), .literal (.str "b")]) (fun _ => none)
        { seed := some (.num 123), count := some 1 }
        { fk := { locale := "en", prng := 7 }, currentSeed := none, world := [0, 500] }
      ).toOption.bind fun p =>
        (generateSync (.union [.literal (.str "a"), .literal (.str "b")]) (fun _ => none)
            { seed := some (.num 123), count := some 1 } p.2
          ).toOption.map (fun q => q.1.map jsString)) = some ["b"] := by
  constructor <;>
    simp [generateSync, generateLoop, generateFromAST, generateUnion, generateUnionPick,
      mathRandomT, randomIndex, astLiteralValue, setupSeed, seedValueOf, fakerApplySeed,
      seedTruthy, localeTruthy, jsString, Except.toOption]

/-- C3 counterexample: the code does the locale/seed setup once per call,
not once per item. Under the per-item reading of the spec a seeded
two-item batch over a Boolean schema would repeat one value twice; the code
reseeds only once and its two items differ. -/
theorem per_item_setup_counterexample :
    (generateSync .booleanKeyword (fun _ => none)
        { count := some 2, seed := some (.num 5) }
        { fk := { locale := "en", prng := 7 }, currentSeed := none, world := [] }
      ).toOption.map (fun p => p.1.map jsBool) = some [false, true] ∧
    (generateSyncPerItem .booleanKeyword (fun _ => none)
        { count := some 2, seed := some (.num 5) }
        { fk := { locale := "en", prng := 7 }, currentSeed := none, world := [] }
      ).toOption.map (fun p => p.1.map jsBool) = some [false, false] ∧
    (generateSync .booleanKeyword (fun _ => none)
        { count := some 2, seed := some (.num 5) }
        { fk := { locale := "en", prng := 7 }, currentSeed := none, world := [] }
      ).toOption.map (fun p => p.1.map jsBool) ≠
      (generateSyncPerItem .booleanKeyword (fun _ => none)
        { count := some 2, seed := some (.num 5) }
        { fk := { locale := "en", prng := 7 }, currentSeed := none, world := [] }
      ).toOption.map (fun p => p.1.map jsBool) := by
  refine ⟨?_, ?_, ?_⟩ <;>
    simp [generateSync, generateSyncPerItem, generateSyncPerItemSpec, generateLoop,
      generateFromAST, generateBoolean, datatypeBoolean, fakerDraw, lcgNext,
      setupSeed, seedValueOf, fakerApplySeed, seedTruthy, localeTruthy, jsBool,
      Except.toOption]

/-- C3 (amended): the engine resolves the count, performs the locale switch
and the reseed once per generation call, and then evaluates the root node at
path `""` once per requested item, appending each result — so the loop yields
exactly `count` items. -/
theorem generate_sync_setup_once (schema : AST) (config : Config)
    (options : MockOptions) (g : GenState) :
    (generateSync schema config options g =
      match (if localeTruthy options.locale then setupLocale (options.locale.getD (.code "")) g
             else .ok g) with
      | .error e => .error e
      | .ok g1 =>
        let g2 := if seedTruthy options.seed then setupSeed (options.seed.getD (.num 0)) g1
                  else g1
        let (items, st') :=
          generateLoop (options.count.getD 1) schema config { fk := g2.fk, world := g2.world }
        .ok (items, { g2 with fk := st'.fk, world := st'.world })) ∧
    (∀ (n : Nat) (st : RunState), (generateLoop n schema config st).1.length = n) :=
  ⟨rfl, fun n st => generateLoop_length n schema config st⟩

/-- C6 counterexample: the empty string is a locale code not among the known
codes, yet a call carrying it does not fail — `if (options?.locale)` treats
`""` as falsy and skips the locale switch entirely. -/
theorem empty_locale_code_no_error :
    ("" ∈ allLocaleKeys → False) ∧
    (generateSync .stringKeyword (fun _ => none) { locale := some (.code "") }
        { fk := { locale := "en", prng := 7 }, currentSeed := none, world := [] }).isOk
      = true := by
  constructor
  · decide
  · rcases hp : generateLoop 1 AST.stringKeyword (fun _ => none)
        { fk := { locale := "en", prng := 7 }, world := [] } with ⟨items, st2⟩
    simp [generateSync, localeTruthy, seedTruthy, hp, Except.isOk, Except.toBool]

/-- C6 (amended): a generation call whose options carry a NONEMPTY string
locale code outside the known codes fails as a whole with the InvalidLocale
error; no fallback locale is substituted, and the error's message enumerates
every known locale code. -/
theorem invalid_locale_error (schema : AST) (config : Config) (options : MockOptions)
    (g : GenState) (code : String)
    (hloc : options.locale = some (.code code)) (hne : code ≠ "")
    (hnot : code ∉ allLocaleKeys) :
    generateSync schema config options g =
      .error { locale := code, available := allLocaleKeys } ∧
    ∀ c ∈ allLocaleKeys,
      strContains (localeErrorMessage { locale := code, available := allLocaleKeys }) c
        = true := by
  constructor
  · simp only [generateSync, hloc, localeTruthy]
    rw [if_pos (by simpa using hne)]
    simp [setupLocale, hnot]
  · intro c hc
    have : localeErrorMessage { locale := code, available := allLocaleKeys } =
        ("Locale '" ++ code ++ "' not found. Available locales: ")
          ++ strJoin ", " allLocaleKeys := rfl
    rw [this]
    fin_cases hc <;> exact strContains_append_right _ _ _ (by decide)

/-- C6 witness: the unknown nonempty code `xx` makes the whole call fail with
the InvalidLocale error carrying the known-locales list. -/
theorem invalid_locale_error_witness :
    (("xx" : String) ≠ "") ∧ ("xx" ∈ allLocaleKeys → False) ∧
    generateSync .stringKeyword (fun _ => none) { locale := some (.code "xx") }
        { fk := { locale := "en", prng := 7 }, currentSeed := none, world := [] } =
      .error { locale := "xx", available := allLocaleKeys } :=
  ⟨by decide, by decide,
    (invalid_locale_error .stringKeyword (fun _ => none) { locale := some (.code "xx") }
      { fk := { locale := "en", prng := 7 }, currentSeed := none, world := [] }
      "xx" rfl (by decide) (by decide)).1⟩

theorem generateStringHeuristic_congr (p1 p2 : String) (fk : FakerInst)
    (h : getFieldName p1 = getFieldName p2) :
    generateStringHeuristic p1 fk = generateStringHeuristic p2 fk := by
  unfold generateStringHeuristic
  rw [h]

theorem generateNumberHeuristic_congr (p1 p2 : String) (fk : FakerInst)
    (h : getFieldName p1 = getFieldName p2) :
    generateNumberHeuristic p1 fk = generateNumberHeuristic p2 fk := by
  unfold generateNumberHeuristic
  rw [h]

theorem generateDateHeuristic_congr (p1 p2 : String) (fk : FakerInst)
    (h : getFieldName p1 = getFieldName p2) :
    generateDateHeuristic p1 fk = generateDateHeuristic p2 fk := by
  unfold generateDateHeuristic
  rw [h]

theorem generateString_path_congr (p1 p2 : String) (cfg : Option FieldOverride)
    (fk : FakerInst) (h : getFieldName p1 = getFieldName p2) :
    generateString p1 cfg fk = generateString p2 cfg fk := by
  unfold generateString
  match cfg with
  | none => exact generateStringHeuristic_congr p1 p2 fk h
  | some (.ofFn f) => rfl
  | some (.ofStr s) => rfl
  | some (.ofCfg fs tr) =>
    by_cases hc : strTruthy fs = true
    · simp [hc]
    · simp [hc, generateStringHeuristic_congr p1 p2 fk h]

theorem generateNumber_path_congr (p1 p2 : String) (cfg : Option FieldOverride)
    (fk : FakerInst) (h : getFieldName p1 = getFieldName p2) :
    generateNumber p1 cfg fk = generateNumber p2 cfg fk := by
  unfold generateNumber
  match cfg with
  | none => exact generateNumberHeuristic_congr p1 p2 fk h
  | some (.ofFn f) => rfl
  | some (.ofStr s) => rfl
  | some (.ofCfg fs tr) =>
    by_cases hc : strTruthy fs = true
    · simp [hc]
    · simp [hc, generateNumberHeuristic_congr p1 p2 fk h]

theorem generateBoolean_path_congr (p1 p2 : String) (cfg : Option FieldOverride)
    (fk : FakerInst) : generateBoolean p1 cfg fk = generateBoolean p2 cfg fk := by
  unfold generateBoolean
  rfl

theorem generateDate_path_congr (p1 p2 : String) (cfg : Option FieldOverride)
    (fk : FakerInst) (h : getFieldName p1 = getFieldName p2) :
    generateDate p1 cfg fk = generateDate p2 cfg fk := by
  unfold generateDate
  match cfg with
  | none => exact generateDateHeuristic_congr p1 p2 fk h
  | some (.ofFn f) => rfl
  | some (.ofStr s) => rfl
  | some (.ofCfg fs tr) =>
    by_cases hc : strTruthy fs = true
    · simp [hc]
    · simp [hc, generateDateHeuristic_congr p1 p2 fk h]

/-- C8: override lookup keys on the last path segment only. Two primitive
fields at different nesting positions whose paths share a last segment
consult the same override entry and generate identically (the whole
evaluation of these node kinds depends on the path only through its last
segment). -/
theorem override_last_segment_keying (p1 p2 : String) (config : Config)
    (st : RunState) (h : getFieldName p1 = getFieldName p2) :
    config (getFieldName p1) = config (getFieldName p2) ∧
    generateFromAST .stringKeyword config p1 st
      = generateFromAST .stringKeyword config p2 st ∧
    generateFromAST .numberKeyword config p1 st
      = generateFromAST .numberKeyword config p2 st ∧
    generateFromAST .booleanKeyword config p1 st
      = generateFromAST .booleanKeyword config p2 st ∧
    generateFromAST (.declaration "Date" []) config p1 st
      = generateFromAST (.declaration "Date" []) config p2 st := by
  refine ⟨by rw [h], ?_, ?_, ?_, ?_⟩
  · simp only [generateFromAST]
    rw [h, generateString_path_congr p1 p2 _ _ h]
  · simp only [generateFromAST]
    rw [h, generateNumber_path_congr p1 p2 _ _ h]
  · simp only [generateFromAST]
    rw [h, generateBoolean_path_congr p1 p2 _ _]
  · simp only [generateFromAST, generateDeclaration]
    norm_num
    rw [h, generateDate_path_congr p1 p2 _ _ h]
    exact ⟨rfl, rfl⟩

/-- C8 witness: `user.name` and `company.owner.name` share the last segment
`name`, so one override entry under `name` drives both. -/
theorem override_last_segment_keying_witness :
    getFieldName "user.name" = getFieldName "company.owner.name" ∧
    generateFromAST .stringKeyword
        (fun k => if k = "name" then some (.ofFn (fun _ => .str "Bob")) else none)
        "user.name" { fk := { locale := "en", prng := 3 }, world := [] }
      = generateFromAST .stringKeyword
        (fun k => if k = "name" then some (.ofFn (fun _ => .str "Bob")) else none)
        "company.owner.name" { fk := { locale := "en", prng := 3 }, world := [] } :=
  ⟨by decide,
    (override_last_segment_keying "user.name" "company.owner.name"
      (fun k => if k = "name" then some (.ofFn (fun _ => .str "Bob")) else none)
      { fk := { locale := "en", prng := 3 }, world := [] } (by decide)).2.1⟩

/-- C4: override resolution for primitive fields follows the fixed
precedence chain — function override first, then string method-spec, then
structured override (transform applied after invocation), then the
field-name heuristics, then the kind default — for every path, including
paths whose field name matches a heuristic entry. -/
theorem override_precedence (path s spec : String) (fk : FakerInst)
    (f : Unit → Value) (tr : Value → Value) :
    (generateString path (some (.ofFn f)) fk = (jsString (f ()), fk)) ∧
    (generateString path (some (.ofStr s)) fk =
      (let (v, fk') := executeFakerMethod fk s
       (jsString v, fk'))) ∧
    (spec ≠ "" →
      generateString path (some (.ofCfg (some spec) (some tr))) fk =
        (let (v, fk') := executeFakerMethod fk spec
         (jsString (tr v), fk'))) ∧
    (spec ≠ "" →
      generateString path (some (.ofCfg (some spec) none)) fk =
        (let (v, fk') := executeFakerMethod fk spec
         (jsString v, fk'))) ∧
    (generateString path (some (.ofCfg none (some tr))) fk
      = generateStringHeuristic path fk) ∧
    (generateString path none fk = generateStringHeuristic path fk) ∧
    (generateNumber path (some (.ofFn f)) fk = (jsNumber (f ()), fk)) ∧
    (generateNumber path (some (.ofStr s)) fk =
      (let (v, fk') := executeFakerMethod fk s
       (jsNumber v, fk'))) ∧
    (spec ≠ "" →
      generateNumber path (some (.ofCfg (some spec) (some tr))) fk =
        (let (v, fk') := executeFakerMethod fk spec
         (jsNumber (tr v), fk'))) ∧
    (generateNumber path (some (.ofCfg none none)) fk
      = generateNumberHeuristic path fk) ∧
    (generateNumber path none fk = generateNumberHeuristic path fk) ∧
    (strContains (strToLower (getFieldName path)) "email" = false →
     strContains (strToLower (getFieldName path)) "name" = false →
     strContains (strToLower (getFieldName path)) "phone" = false →
     strContains (strToLower (getFieldName path)) "address" = false →
     strContains (strToLower (getFieldName path)) "city" = false →
     strContains (strToLower (getFieldName path)) "country" = false →
     strContains (strToLower (getFieldName path)) "url" = false →
     strContains (strToLower (getFieldName path)) "title" = false →
     strContains (strToLower (getFieldName path)) "description" = false →
      generateStringHeuristic path fk = loremWord fk) ∧
    (strToLower (getFieldName path) ≠ "id" →
     strContains (strToLower (getFieldName path)) "age" = false →
     strContains (strToLower (getFieldName path)) "price" = false →
     strContains (strToLower (getFieldName path)) "cost" = false →
     strContains (strToLower (getFieldName path)) "count" = false →
     strContains (strToLower (getFieldName path)) "quantity" = false →
      generateNumberHeuristic path fk =
        (let (v, fk') := numberIntDefault fk
         (.num (v : ℚ), fk'))) := by
  refine ⟨rfl, rfl, ?_, ?_, ?_, rfl, rfl, rfl, ?_, ?_, rfl, ?_, ?_⟩
  · intro h
    simp [generateString, strTruthy, h]
  · intro h
    simp [generateString, strTruthy, h]
  · simp [generateString, strTruthy]
  · intro h
    simp [generateNumber, strTruthy, h]
  · simp [generateNumber, strTruthy]
  · intro h1 h2 h3 h4 h5 h6 h7 h8 h9
    simp [generateStringHeuristic, h1, h2, h3, h4, h5, h6, h7, h8, h9]
  · intro h1 h2 h3 h4 h5 h6
    simp [generateNumberHeuristic, h1, h2, h3, h4, h5, h6]

/-- C4 witness: the field name `email` matches a heuristic entry, yet a
function override and a structured override win over the heuristic. -/
theorem override_precedence_witness :
    strContains (strToLower (getFieldName "email")) "email" = true ∧
    generateString "email" (some (.ofFn (fun _ => .str "forced")))
        { locale := "en", prng := 9 } = ("forced", { locale := "en", prng := 9 }) ∧
    (("lorem.word" : String) ≠ "") ∧
    generateString "email" (some (.ofCfg (some "lorem.word") none))
        { locale := "en", prng := 9 } =
      (let (v, fk') := executeFakerMethod { locale := "en", prng := 9 } "lorem.word"
       (jsString v, fk')) :=
  ⟨by decide,
    (override_precedence "email" "x" "lorem.word" { locale := "en", prng := 9 }
      (fun _ => .str "forced") id).1,
    by decide,
    (override_precedence "email" "x" "lorem.word" { locale := "en", prng := 9 }
      (fun _ => .str "forced") id).2.2.2.1 (by decide)⟩


theorem datePast_lt_now (fk : FakerInst) : (datePast fk).1 < modelNow := by
  unfold datePast
  have h1 := Int.emod_nonneg ((fakerDraw fk).1 : Int) (by decide : (yearMs : Int) ≠ 0)
  simp only []
  omega

theorem dateRecent_bounds (fk : FakerInst) :
    modelNow - dayMs < (dateRecent fk).1 ∧ (dateRecent fk).1 ≤ modelNow := by
  unfold dateRecent
  have h1 := Int.emod_nonneg ((fakerDraw fk).1 : Int) (by decide : (dayMs : Int) ≠ 0)
  have h2 := Int.emod_lt_of_pos ((fakerDraw fk).1 : Int) (by decide : (0 : Int) < dayMs)
  simp only []
  omega

theorem dateFuture_gt_now (fk : FakerInst) : modelNow < (dateFuture fk).1 := by
  unfold dateFuture
  have h1 := Int.emod_nonneg ((fakerDraw fk).1 : Int) (by decide : (yearMs : Int) ≠ 0)
  simp only []
  omega

/-- C2: a Declaration node whose resolved type name is `Date`, `UUID`,
`ULID`, `Email` or `URL` dispatches to the dedicated generator for that name:
Date through `generateDate` (override chain, then the created/birth → past,
updated/modified → recent, expire/due → future, else recent heuristics, with
the produced dates on the right side of "now"), UUID to the provider's UUID
generator, ULID to a 26-character alphanumeric token, Email to the email
generator (its result contains `@`), and URL to the URL generator. -/
theorem declaration_dispatch (config : Config) (path : String) (st : RunState) :
    (generateFromAST (.declaration "Date" []) config path st =
      (let (v, fk') := generateDate path (config (getFieldName path)) st.fk
       (v, { st with fk := fk' }))) ∧
    (generateFromAST (.declaration "UUID" []) config path st =
      (let (s, fk') := stringUuid st.fk
       (.str s, { st with fk := fk' }))) ∧
    (generateFromAST (.declaration "ULID" []) config path st =
      (let (s, fk') := stringAlphanumeric 26 st.fk
       (.str s, { st with fk := fk' }))) ∧
    (((stringAlphanumeric 26 st.fk).1).length = 26 ∧
      ∀ c ∈ ((stringAlphanumeric 26 st.fk).1).data, c ∈ alphanumChars) ∧
    (generateFromAST (.declaration "Email" []) config path st =
      (let (s, fk') := internetEmail st.fk
       (.str s, { st with fk := fk' }))) ∧
    (strContains ((internetEmail st.fk).1) "@" = true) ∧
    (generateFromAST (.declaration "URL" []) config path st =
      (let (s, fk') := internetUrl st.fk
       (.str s, { st with fk := fk' }))) ∧
    ((strContains (strToLower (getFieldName path)) "created"
        || strContains (strToLower (getFieldName path)) "birth") = true →
      generateDate path none st.fk =
        (let (t, fk') := datePast st.fk
         (.date t, fk')) ∧ (datePast st.fk).1 < modelNow) ∧
    ((strContains (strToLower (getFieldName path)) "created"
        || strContains (strToLower (getFieldName path)) "birth") = false →
     (strContains (strToLower (getFieldName path)) "updated"
        || strContains (strToLower (getFieldName path)) "modified") = true →
      generateDate path none st.fk =
        (let (t, fk') := dateRecent st.fk
         (.date t, fk')) ∧
        modelNow - dayMs < (dateRecent st.fk).1 ∧ (dateRecent st.fk).1 ≤ modelNow) ∧
    ((strContains (strToLower (getFieldName path)) "created"
        || strContains (strToLower (getFieldName path)) "birth") = false →
     (strContains (strToLower (getFieldName path)) "updated"
        || strContains (strToLower (getFieldName path)) "modified") = false →
     (strContains (strToLower (getFieldName path)) "expire"
        || strContains (strToLower (getFieldName path)) "due") = true →
      generateDate path none st.fk =
        (let (t, fk') := dateFuture st.fk
         (.date t, fk')) ∧ modelNow < (dateFuture st.fk).1) ∧
    ((strContains (strToLower (getFieldName path)) "created"
        || strContains (strToLower (getFieldName path)) "birth") = false →
     (strContains (strToLower (getFieldName path)) "updated"
        || strContains (strToLower (getFieldName path)) "modified") = false →
     (strContains (strToLower (getFieldName path)) "expire"
        || strContains (strToLower (getFieldName path)) "due") = false →
      generateDate path none st.fk =
        (let (t, fk') := dateRecent st.fk
         (.date t, fk'))) := by
  refine ⟨?_, ?_, ?_, ⟨stringAlphanumeric_length 26 st.fk, (stringAlphanumeric_spec 26 st.fk).2⟩,
    ?_, ?_, ?_, ?_, ?_, ?_, ?_⟩
  · simp [generateFromAST, generateDeclaration]
  · simp [generateFromAST, generateDeclaration]
  · simp [generateFromAST, generateDeclaration]
  · simp [generateFromAST, generateDeclaration]
  · unfold internetEmail
    simp only []
    exact strContains_append_right _ _ _ (by decide)
  · simp [generateFromAST, generateDeclaration]
  · intro h1
    exact ⟨by simp [generateDate, generateDateHeuristic, h1], datePast_lt_now st.fk⟩
  · intro h1 h2
    exact ⟨by simp [generateDate, generateDateHeuristic, h1, h2], dateRecent_bounds st.fk⟩
  · intro h1 h2 h3
    exact ⟨by simp [generateDate, generateDateHeuristic, h1, h2, h3], dateFuture_gt_now st.fk⟩
  · intro h1 h2 h3
    simp [generateDate, generateDateHeuristic, h1, h2, h3]

/-- C2 witness: the Date heuristics at the concrete field names `createdAt`
(past) and `expiresAt` (future). -/
theorem declaration_dispatch_witness :
    ((strContains (strToLower (getFieldName "createdAt")) "created"
        || strContains (strToLower (getFieldName "createdAt")) "birth") = true) ∧
    generateDate "createdAt" none { locale := "en", prng := 11 } =
      (let (t, fk') := datePast { locale := "en", prng := 11 }
       (.date t, fk')) ∧
    generateFromAST (.declaration "ULID" []) (fun _ => none) "token"
        { fk := { locale := "en", prng := 11 }, world := [] } =
      (let (s, fk') := stringAlphanumeric 26 { locale := "en", prng := 11 }
       (.str s, { fk := fk', world := [] })) := by
  obtain ⟨hDate, hUuid, hUlid, hLen, hEmail, hAt, hUrl, hPast, hRec, hFut, hDef⟩ :=
    declaration_dispatch (fun _ => none) "createdAt"
      { fk := { locale := "en", prng := 11 }, world := [] }
  obtain ⟨hUlid2, _⟩ :=
    (declaration_dispatch (fun _ => none) "token"
      { fk := { locale := "en", prng := 11 }, world := [] }).2.2
  exact ⟨by decide, (hPast (by decide)).1, hUlid2⟩

/-- C9: a Union node draws one ambient random value `r`, picks the member at
index `⌊r * n⌋` (which always lies inside the member list, and equals `j`
exactly when `r * n` lands in `[j, j+1)` — an interval of equal width `1/n`
of the unit interval scaled by `n`, for each member index `j`); a picked
Literal member returns its literal value directly without recursing, and any
other picked member is recursively evaluated at the same path — so the
generated value always comes from evaluating one of the members. -/
theorem union_member_semantics (types : List AST) (config : Config) (path : String)
    (st : RunState) (h : types ≠ []) :
    randomIndex (mathRandomT st.world).1 types.length < types.length ∧
    ((randomIndex (mathRandomT st.world).1 types.length : Int)
      = ⌊randVal (mathRandomT st.world).1 * (types.length : ℚ)⌋) ∧
    (∀ j : Nat, randomIndex (mathRandomT st.world).1 types.length = j ↔
        (j : ℚ) ≤ randVal (mathRandomT st.world).1 * (types.length : ℚ) ∧
          randVal (mathRandomT st.world).1 * (types.length : ℚ) < (j : ℚ) + 1) ∧
    generateFromAST (.union types) config path st =
      (match astLiteralValue
          (types.getD (randomIndex (mathRandomT st.world).1 types.length) .other) with
       | some v => (v, { st with world := (mathRandomT st.world).2 })
       | none =>
         generateFromAST
           (types.getD (randomIndex (mathRandomT st.world).1 types.length) .other)
           config path { st with world := (mathRandomT st.world).2 }) := by
  have hlen : 0 < types.length := List.length_pos.mpr h
  have hlt := mathRandomT_lt st.world
  refine ⟨randomIndex_lt _ _ hlt hlen, randomIndex_eq_floor _ _, ?_, ?_⟩
  · intro j
    have hfl := randomIndex_eq_floor (mathRandomT st.world).1 types.length
    constructor
    · intro hj
      rw [hj] at hfl
      constructor
      · calc ((j : ℚ)) = ((j : Int) : ℚ) := by push_cast; ring
        _ ≤ _ := by rw [hfl]; exact Int.floor_le _
      · calc randVal (mathRandomT st.world).1 * (types.length : ℚ)
            < ((j : Int) : ℚ) + 1 := by rw [hfl]; exact Int.lt_floor_add_one _
        _ = (j : ℚ) + 1 := by push_cast; ring
    · intro ⟨hle, hlt2⟩
      have : ⌊randVal (mathRandomT st.world).1 * (types.length : ℚ)⌋ = (j : Int) := by
        rw [Int.floor_eq_iff]
        constructor
        · exact_mod_cast hle
        · push_cast
          exact hlt2
      omega
  · rcases hmr : mathRandomT st.world with ⟨t, world2⟩
    have hidx : randomIndex t types.length < types.length := by
      have := mathRandomT_lt st.world
      rw [hmr] at this
      exact randomIndex_lt _ _ this hlen
    simp only [generateFromAST, generateUnion, hmr]
    rw [generateUnionPick_eq _ _ _ _ _ hidx]

/-- C9 witness: on the two-literal union with ambient draw 500, the picked
index is 1 and the literal `"y"` is returned directly. -/
theorem union_member_semantics_witness :
    randomIndex
        (mathRandomT (({ fk := { locale := "en", prng := 1 }, world := [500] } : RunState)).world).1
        ([AST.literal (.str "x"), AST.literal (.str "y")]).length
      < ([AST.literal (.str "x"), AST.literal (.str "y")]).length ∧
    generateFromAST (.union [AST.literal (.str "x"), AST.literal (.str "y")])
        (fun _ => none) "" { fk := { locale := "en", prng := 1 }, world := [500] } =
      (.str "y", { fk := { locale := "en", prng := 1 }, world := [] }) := by
  have h := union_member_semantics [AST.literal (.str "x"), AST.literal (.str "y")]
    (fun _ => none) "" { fk := { locale := "en", prng := 1 }, world := [500] }
    (by simp)
  refine ⟨h.1, ?_⟩
  have h4 := h.2.2.2
  simpa [mathRandomT, randomIndex, astLiteralValue] using h4

/-- C5: the method-invocation interpreter never raises; a string that fails
the `namespace.path(args)` pattern, an absent path segment, or a non-callable
resolved member all produce the single-word fallback; a resolved function is
invoked with the parsed JSON argument when the blob parses, and with no
argument when the blob fails to parse or is absent. -/
theorem method_interpreter_cases (fk : FakerInst) (s : String) :
    (parseFakerSpec s = none →
      executeFakerMethod fk s =
        (let (w, fk') := loremWord fk
         (.str w, fk'))) ∧
    (∀ p a, parseFakerSpec s = some (p, a) →
      (resolveMember providerGraph ((splitOnChar '.' p.data).map String.mk) = none →
        executeFakerMethod fk s =
          (let (w, fk') := loremWord fk
           (.str w, fk'))) ∧
      (∀ ch, resolveMember providerGraph ((splitOnChar '.' p.data).map String.mk)
          = some (.ns ch) →
        executeFakerMethod fk s =
          (let (w, fk') := loremWord fk
           (.str w, fk'))) ∧
      (∀ v, resolveMember providerGraph ((splitOnChar '.' p.data).map String.mk)
          = some (.prop v) →
        executeFakerMethod fk s =
          (let (w, fk') := loremWord fk
           (.str w, fk'))) ∧
      (∀ f, resolveMember providerGraph ((splitOnChar '.' p.data).map String.mk)
          = some (.fn f) →
        (a = none → executeFakerMethod fk s = f none fk) ∧
        (∀ b, a = some b →
          (∀ j, jsonParse b = some j → executeFakerMethod fk s = f (some j) fk) ∧
          (jsonParse b = none → executeFakerMethod fk s = f none fk)))) := by
  constructor
  · intro hp
    simp [executeFakerMethod, hp]
  · intro p a hp
    refine ⟨?_, ?_, ?_, ?_⟩
    · intro hr
      simp [executeFakerMethod, hp, hr]
    · intro ch hr
      simp [executeFakerMethod, hp, hr]
    · intro v hr
      simp [executeFakerMethod, hp, hr]
    · intro f hr
      refine ⟨?_, ?_⟩
      · intro ha
        subst ha
        simp [executeFakerMethod, hp, hr]
      · intro b hb
        subst hb
        constructor
        · intro j hj
          simp [executeFakerMethod, hp, hr, hj]
        · intro hj
          simp [executeFakerMethod, hp, hr, hj]

/-- C5 witness: the malformed spec `invalid.faker.method()` (empty argument
blob) falls back to a word; an unresolvable path falls back; a good
`number.int` spec is invoked with its parsed JSON object; an unparsable blob
invokes the function with no argument. -/
theorem method_interpreter_cases_witness :
    (parseFakerSpec "invalid.faker.method()" = none) ∧
    executeFakerMethod { locale := "en", prng := 13 } "invalid.faker.method()" =
      (let (w, fk') := loremWord { locale := "en", prng := 13 }
       (.str w, fk')) ∧
    executeFakerMethod { locale := "en", prng := 13 } "number.nope" =
      (let (w, fk') := loremWord { locale := "en", prng := 13 }
       (.str w, fk')) ∧
    jsonParse "\x7b\"min\":2,\"max\":2\x7d" = some (.obj [("min", .num 2), ("max", .num 2)]) ∧
    executeFakerMethod { locale := "en", prng := 13 } "number.int(\x7b\"min\":2,\"max\":2\x7d)" =
      fnNumberInt (some (.obj [("min", .num 2), ("max", .num 2)])) { locale := "en", prng := 13 } ∧
    jsonParse "oops" = none ∧
    executeFakerMethod { locale := "en", prng := 13 } "number.int(oops)" =
      fnNumberInt none { locale := "en", prng := 13 } := by
  refine ⟨by decide, ?_, ?_, by rfl, ?_, by rfl, ?_⟩
  · exact (method_interpreter_cases { locale := "en", prng := 13 }
      "invalid.faker.method()").1 (by decide)
  · exact ((method_interpreter_cases { locale := "en", prng := 13 }
      "number.nope").2 "number.nope" none (by decide)).1 rfl
  · exact (((method_interpreter_cases { locale := "en", prng := 13 }
      "number.int(\x7b\"min\":2,\"max\":2\x7d)").2 "number.int"
      (some "\x7b\"min\":2,\"max\":2\x7d") (by decide)).2.2.2 fnNumberInt rfl).2
      "\x7b\"min\":2,\"max\":2\x7d" rfl |>.1 (.obj [("min", .num 2), ("max", .num 2)]) rfl
  · exact (((method_interpreter_cases { locale := "en", prng := 13 }
      "number.int(oops)").2 "number.int" (some "oops") (by decide)).2.2.2
      fnNumberInt rfl).2 "oops" rfl |>.2 rfl

end EffectFakerModel
